import Mathlib

set_option autoImplicit false

/-!
Verification of the af2rave simulation-preparation and CV-monitoring
subsystem.  The definitions below are shallow embeddings of the Python
sources: `src/af2rave/simulation.py` (`create_simulation_box`,
`CVReporter`, `UnbiasedSimulation`), `src/af2rave/af2rave.py`
(`fill_missing_entries`, `simulation`) and `src/af2rave/run.py`
(`RunAF2RAVE.run_simulation`).  Machine floats are modelled as rationals,
file-system and engine side effects as explicit event traces.
-/

/-- The tuple returned by `CVReporter.describeNextReport`:
`(steps, positions, velocities, forces, energies, enforcePeriodicBox)`.
In the OpenMM reporter protocol the four Booleans say which pieces of
state the reporter needs and the final entry says whether positions are
to be wrapped into the periodic box; the source passes `None` there
(`none` here), which delegates the choice to the engine default, whereas
`some false` would explicitly request absolute, non-wrapped positions. -/
structure ReportDescriptor where
  steps : Nat
  positions : Bool
  velocities : Bool
  forces : Bool
  energies : Bool
  enforcePeriodicBox : Option Bool
  deriving DecidableEq, Repr

/-- Embedding of `CVReporter.describeNextReport` (simulation.py, lines 131-133):
`steps = self._reportInterval - simulation.currentStep % self._reportInterval`,
and the returned tuple is `(steps, True, False, False, False, None)`. -/
def CVReporter.describeNextReport (reportInterval currentStep : Nat) : ReportDescriptor where
  steps := reportInterval - currentStep % reportInterval
  positions := true
  velocities := false
  forces := false
  energies := false
  enforcePeriodicBox := none

/-- The OpenMM driver loop as seen by a single reporter: starting from
step `s`, repeatedly ask `describeNextReport` how many steps to advance;
if that many steps still fit into the run, advance and record a report at
the new current step, otherwise finish the run without a further report.
`fuel` bounds the number of loop iterations (a run of `totalSteps` emits
at most `totalSteps` reports, so a fuel of `totalSteps + 1` is never
exhausted). -/
def driverReportSteps (reportInterval : Nat) : Nat → Nat → Nat → List Nat
  | 0, _, _ => []
  | fuel + 1, totalSteps, s =>
    let r := (CVReporter.describeNextReport reportInterval s).steps
    if s + r ≤ totalSteps then
      (s + r) :: driverReportSteps reportInterval fuel totalSteps (s + r)
    else []

/-- The steps at which `CVReporter.report` fires during a run of
`totalSteps` steps that starts at step 0. -/
def emittedReportSteps (reportInterval totalSteps : Nat) : List Nat :=
  driverReportSteps reportInterval (totalSteps + 1) totalSteps 0

/-- Atom positions, as in the snapshot handed to `CVReporter.report`.
Components are modelled as exact rationals. -/
abbrev Vec3 := ℚ × ℚ × ℚ

/-- Componentwise difference `coord[a] - coord[b]` of two position rows. -/
def vsub (u v : Vec3) : Vec3 := (u.1 - v.1, u.2.1 - v.2.1, u.2.2 - v.2.2)

/-- Componentwise scaling; `value_in_unit(angstroms)` is a fixed linear
rescaling of every component. -/
def vscale (c : ℚ) (v : Vec3) : Vec3 := (c * v.1, c * v.2.1, c * v.2.2)

/-- Sum of squared components, the radicand of the Euclidean norm. -/
def sqNorm (v : Vec3) : ℚ := v.1 * v.1 + v.2.1 * v.2.1 + v.2.2 * v.2.2

/-- One entry of the buffer filled by `CVReporter.report`
(simulation.py, lines 135-140):
`np.linalg.norm((coord[a]-coord[b]).value_in_unit(angstroms))`.
`np.linalg.norm` of a 3-vector is the square root of the sum of the
squared components; the square root itself is a floating-point routine
and is kept abstract as `sqrtF`, and the angstrom unit conversion is the
scale factor `toAngstrom`. -/
def CVReporter.cvValue (sqrtF : ℚ → ℚ) (toAngstrom : ℚ) (coord : Nat → Vec3)
    (a b : Nat) : ℚ :=
  sqrtF (sqNorm (vscale toAngstrom (vsub (coord a) (coord b))))

/-- The buffer written by one `CVReporter.report` call: one distance per
configured index pair, in list order. -/
def CVReporter.reportBuffer (sqrtF : ℚ → ℚ) (toAngstrom : ℚ) (coord : Nat → Vec3)
    (cvs : List (Nat × Nat)) : List ℚ :=
  cvs.map (fun p => CVReporter.cvValue sqrtF toAngstrom coord p.1 p.2)

/-- The data records a run emits: at every step where the driver triggers
the reporter, one row holding the current step number and one distance
per configured pair, computed from the positions current at that step
(`coords s` is the snapshot at step `s`). -/
def emittedRecords (sqrtF : ℚ → ℚ) (toAngstrom : ℚ) (coords : Nat → Nat → Vec3)
    (cvs : List (Nat × Nat)) (reportInterval totalSteps : Nat) :
    List (Nat × List ℚ) :=
  (emittedReportSteps reportInterval totalSteps).map
    (fun s => (s, CVReporter.reportBuffer sqrtF toAngstrom (coords s) cvs))

/-- Mode of the Python `open` call in `CVReporter.__init__`: `'w'`
(create or truncate) unless `append` was requested, then `'a'`. -/
inductive FileMode where
  | truncate
  | append
  deriving DecidableEq, Repr

/-- An observable file-system action performed by `CVReporter.__init__`. -/
inductive FileEvent where
  | openFile (path : String) (mode : FileMode)
  | write (path : String) (data : String)
  deriving DecidableEq, Repr

/-- The state a successfully constructed `CVReporter` holds. -/
structure CVReporterState where
  file : String
  reportInterval : Nat
  list_of_cv : List (Nat × Nat)
  n_cv : Nat
  deriving DecidableEq, Repr

/-- The header line written on construction:
`"#! TIME " + " ".join(f"dist_..." for i, j in list_of_cv) + "\n"`. -/
def cvHeader (cvs : List (Nat × Nat)) : String :=
  "#! TIME " ++
    String.intercalate " "
      (cvs.map (fun p => "dist_" ++ toString p.1 ++ "_" ++ toString p.2)) ++
    "\n"

/-- Embedding of `CVReporter.__init__` (simulation.py, lines 100-125), as the list of
file-system events it performs together with its outcome.  The source
opens the output file first (line 117), then sets the fields, then
asserts `n_cv > 0` (line 121, message "No CVs added."), and only writes
the header line (line 125) when the assertion passed.  So on an empty CV
list the open event has already happened when construction fails. -/
def CVReporter.init (file : String) (reportInterval : Nat)
    (list_of_indexes : List (Nat × Nat)) (append : Bool) :
    List FileEvent × Except String CVReporterState :=
  let openEv := FileEvent.openFile file
    (if append then FileMode.append else FileMode.truncate)
  let n_cv := list_of_indexes.length
  if 0 < n_cv then
    ([openEv, FileEvent.write file (cvHeader list_of_indexes)],
     Except.ok
       { file := file, reportInterval := reportInterval,
         list_of_cv := list_of_indexes, n_cv := n_cv })
  else
    ([openEv], Except.error "No CVs added.")

/-- One call made by `create_simulation_box` (simulation.py, lines 13-89)
on the pdbfixer / Modeller / PDBFile collaborators, in source order. -/
inductive PrepOp where
  | loadStructure (filename : String)
  | findNonstandardResidues
  | replaceNonstandardResidues
  | findMissingResidues
  | findMissingAtoms
  | addMissingAtoms (seed : Nat)
  | addHydrogens (pH : ℚ)
  | addSolvent (water_model : String) (padding : ℚ)
      (positiveIon negativeIon : String) (ionicStrength : ℚ) (neutralize : Bool)
  | writeStructure (outfile : String) (keepIds : Bool)
  deriving DecidableEq, Repr

/-- The keyword options of `create_simulation_box`; `none` means the
keyword was omitted and `kwargs.get` falls back to the default. -/
structure BoxOptions where
  pH : Option ℚ := none
  padding : Option ℚ := none
  water_model : Option String := none
  positiveIon : Option String := none
  negativeIon : Option String := none
  ionicStrength : Option ℚ := none
  deriving Repr

/-- Embedding of `create_simulation_box` (simulation.py, lines 13-89) as the ordered
trace of preparation calls it performs: open and parse the input file,
find and replace non-standard residues, find missing residues and atoms,
`addMissingAtoms(seed=0)`, `addHydrogens(forcefield, pH=pH)`, then
`addSolvent(...)`; finally, when `outfile` is given, write the prepared
structure with `keepIds=True`. -/
def create_simulation_box (filename : String) (outfile : Option String)
    (opts : BoxOptions) : List PrepOp :=
  [PrepOp.loadStructure filename,
   PrepOp.findNonstandardResidues,
   PrepOp.replaceNonstandardResidues,
   PrepOp.findMissingResidues,
   PrepOp.findMissingAtoms,
   PrepOp.addMissingAtoms 0,
   PrepOp.addHydrogens (opts.pH.getD 7),
   PrepOp.addSolvent (opts.water_model.getD "tip3p") (opts.padding.getD 10)
     (opts.positiveIon.getD "Na+") (opts.negativeIon.getD "Cl-")
     (opts.ionicStrength.getD 0) true] ++
  (match outfile with
   | some f => [PrepOp.writeStructure f true]
   | none => [])

/-- JSON values, the data handled by `fill_missing_entries`
(af2rave.py, lines 27-40).  Objects are ordered key/value sequences,
matching Python dict insertion order. -/
inductive Json where
  | null
  | bool (b : Bool)
  | num (q : ℚ)
  | str (s : String)
  | arr (elems : List Json)
  | obj (entries : List (String × Json))
  deriving Repr

/-- Whether a value is a JSON object (`isinstance(-, dict)`). -/
def Json.isObj : Json → Bool
  | Json.obj _ => true
  | _ => false

/-- Whether a value is JSON null (Python `None`). -/
def Json.isNull : Json → Bool
  | Json.null => true
  | _ => false

/-- Python dict lookup `d[key]` / `key in d`, on the first matching key. -/
def lookupJson : List (String × Json) → String → Option Json
  | [], _ => none
  | (k, v) :: rest, key => if k = key then some v else lookupJson rest key

/-- Python dict assignment `d[key] = v` for a key that is present:
replace the value of the first matching entry. -/
def setKey : List (String × Json) → String → Json → List (String × Json)
  | [], _, _ => []
  | (k, v) :: rest, key, newV =>
    if k = key then (k, newV) :: rest else (k, v) :: setKey rest key newV

/-- Embedding of `fill_missing_entries(json_data, default_values)` (af2rave.py,
lines 27-40): for each default entry in order, insert it (at the end,
as Python dict insertion does) when the key is absent; when the key is
present and both the default value and the present value are dicts,
recursively fill the nested dict; otherwise leave the entry alone. -/
def fill_missing_entries (json_data : List (String × Json)) :
    List (String × Json) → List (String × Json)
  | [] => json_data
  | (key, dv) :: rest =>
    match lookupJson json_data key with
    | none => fill_missing_entries (json_data ++ [(key, dv)]) rest
    | some v =>
      match dv, v with
      | Json.obj dsub, Json.obj vsub =>
        fill_missing_entries
          (setKey json_data key (Json.obj (fill_missing_entries vsub dsub))) rest
      | _, _ => fill_missing_entries json_data rest
  termination_by ds => sizeOf ds
  decreasing_by all_goals (simp_wf <;> omega)

/-- A configuration already specifies every default key at every nesting
level: for every default entry the key is present, and whenever both the
default value and the present value are dicts this holds recursively. -/
def fullySpecified (json_data : List (String × Json)) :
    List (String × Json) → Bool
  | [] => true
  | (key, dv) :: rest =>
    match lookupJson json_data key with
    | none => false
    | some v =>
      match dv, v with
      | Json.obj dsub, Json.obj vsub =>
        fullySpecified vsub dsub && fullySpecified json_data rest
      | _, _ => fullySpecified json_data rest
  termination_by ds => sizeOf ds
  decreasing_by all_goals (simp_wf <;> omega)

/-- The `default_values` dict of `simulation` (af2rave.py, lines 48-68). -/
def defaultValues : List (String × Json) :=
  [("pdb_file", Json.null),
   ("temp", Json.num 310),
   ("pressure", Json.num 1),
   ("dt", Json.num (2 / 1000)),
   ("cutoff", Json.num 10),
   ("steps", Json.num 50000000),
   ("append", Json.bool false),
   ("progress_every", Json.num 1000),
   ("save_checkpoint", Json.null),
   ("save_pdb", Json.null),
   ("cv_reporter", Json.obj
      [("list_of_index", Json.null),
       ("cv_file", Json.str "COLVAR.dat"),
       ("cv_freq", Json.num 500)]),
   ("xtc_reporter", Json.obj
      [("xtc_file", Json.str "traj.xtc"),
       ("xtc_freq", Json.num 5000)])]

/-- An invocation performed by `simulation` (af2rave.py) after its input
validation: constructing the simulation box / driver, running it, and the
optional checkpoint / structure outputs. -/
inductive JobEvent where
  | simulationBoxInvoked
  | runInvoked (steps : Json)
  | saveCheckpointInvoked (path : Json)
  | savePdbInvoked (path : Json)

/-- The `simulation(metadata)` entry point (af2rave.py, lines 42-96), as
the invocations it performs paired with its outcome.  It first deep-merges
the defaults into `metadata`, then builds `kwargs`: the top-level reads
always succeed after the merge, but `metadata["cv_reporter"]["..."]`
(lines 80-82) and `metadata["xtc_reporter"]["..."]` (lines 84-85) raise a
`TypeError` when the corresponding entry is not a dict (a user-supplied
non-dict value survives the merge untouched).  Only then is `pdb_file`
checked against `None` (lines 87-88, `ValueError("pdb_file is required.")`);
when it passes, `SimulationBox(**kwargs)` and `run(metadata["steps"])` are
invoked, followed by the conditional `save_checkpoint` / `save_pdb` calls
(lines 90-96).  The source also shadows the imported `simulation` module
with this function, so line 90 itself could never succeed at runtime; that
is outside what this trace models before the `pdb_file` check. -/
def simulationJob (metadata : List (String × Json)) :
    List JobEvent × Except String Unit :=
  let m := fill_missing_entries metadata defaultValues
  match lookupJson m "cv_reporter" with
  | some (Json.obj _) =>
    (match lookupJson m "xtc_reporter" with
     | some (Json.obj _) =>
       (match lookupJson m "pdb_file" with
        | some Json.null => ([], Except.error "pdb_file is required.")
        | none => ([], Except.error "pdb_file is required.")
        | some _ =>
          let steps := (lookupJson m "steps").getD Json.null
          let ckpt := (lookupJson m "save_checkpoint").getD Json.null
          let pdbOut := (lookupJson m "save_pdb").getD Json.null
          ([JobEvent.simulationBoxInvoked, JobEvent.runInvoked steps] ++
             (if ckpt.isNull then [] else [JobEvent.saveCheckpointInvoked ckpt]) ++
             (if pdbOut.isNull then [] else [JobEvent.savePdbInvoked pdbOut]),
           Except.ok ()))
     | _ => ([], Except.error "TypeError"))
  | _ => ([], Except.error "TypeError")

/-- Modelled from the spec: the bodies of `UnbiasedSimulation.run` and
`UnbiasedSimulation.restart` are placeholders in simulation.py (lines
181-191) and `save_checkpoint` appears only at its call site in af2rave.py
(lines 93-96), so the checkpoint lifecycle is taken from spec section 4.3:
the engine-internal trajectory state is its positions, velocities and box
vectors (held by the external engine) together with the step counter, and
a single integrator step is a deterministic transformation of that state
on a fixed backend. -/
structure MDState (P V B : Type) where
  positions : P
  velocities : V
  boxVectors : B
  stepCount : Nat
  deriving DecidableEq, Repr

/-- Modelled from the spec: a checkpoint persists the exact engine state
(positions, velocities, box vectors) and the step counter, and nothing
else. -/
structure MDCheckpoint (P V B : Type) where
  positions : P
  velocities : V
  boxVectors : B
  stepCount : Nat
  deriving DecidableEq, Repr

/-- Modelled from the spec: `run(k)` advances the integrator step by step,
`k` single steps in sequence. -/
def UnbiasedSimulation.run {P V B : Type}
    (stepF : MDState P V B → MDState P V B) (k : Nat) (s : MDState P V B) :
    MDState P V B :=
  stepF^[k] s

/-- Modelled from the spec: `save_checkpoint` serializes the exact current
engine state. -/
def UnbiasedSimulation.saveCheckpoint {P V B : Type} (s : MDState P V B) :
    MDCheckpoint P V B :=
  { positions := s.positions, velocities := s.velocities,
    boxVectors := s.boxVectors, stepCount := s.stepCount }

/-- Modelled from the spec: `restart` restores the engine state a
checkpoint holds, so that integration continues bit-reproducibly. -/
def UnbiasedSimulation.restart {P V B : Type} (c : MDCheckpoint P V B) :
    MDState P V B :=
  { positions := c.positions, velocities := c.velocities,
    boxVectors := c.boxVectors, stepCount := c.stepCount }

/-- The trajectory of a `run`: the sequence of engine states after each of
the `k` integrator steps, in order (this is what the attached reporters
observe). -/
def UnbiasedSimulation.traj {P V B : Type}
    (stepF : MDState P V B → MDState P V B) (k : Nat) (s : MDState P V B) :
    List (MDState P V B) :=
  (List.range k).map (fun i => stepF^[i + 1] s)

/-- Embedding of `RunAF2RAVE.run_simulation` (run.py, lines 75-84): a plain `for` loop
over the cluster-representative structure files; each iteration runs the
per-structure preparation-plus-simulation pipeline (`SimulationBox`
creation, `create_box`, `save_pdb`, `UnbiasedSimulation(...).run(5000)`),
abstracted here as `pipeline`.  The loop body contains no exception
handling, so a raised error stops the loop.  The first component collects
the structures whose pipeline was invoked, in order; the second is the
loop's outcome. -/
def RunAF2RAVE.run_simulation (pipeline : String → Except String Unit) :
    List String → List String × Except String Unit
  | [] => ([], Except.ok ())
  | p :: rest =>
    match pipeline p with
    | Except.ok _ =>
      let r := RunAF2RAVE.run_simulation pipeline rest
      (p :: r.1, r.2)
    | Except.error e => ([p], Except.error e)

/-- A concrete per-structure pipeline that fails on the first
representative and would succeed on any other. -/
def failingPipeline : String → Except String Unit :=
  fun p =>
    if p = "structure_0.pdb" then Except.error "OpenMMException" else Except.ok ()

theorem nextReportAt_mod (n s : Nat) (hn : 0 < n) : (s + (n - s % n)) % n = 0 := by
  obtain ⟨q, r, hr, rfl⟩ : ∃ q r, r < n ∧ s = r + n * q :=
    ⟨s / n, s % n, Nat.mod_lt s hn, by have := Nat.div_add_mod s n; omega⟩
  have hmod : (r + n * q) % n = r := by
    rw [Nat.add_mul_mod_self_left, Nat.mod_eq_of_lt hr]
  rw [hmod, show r + n * q + (n - r) = n * (q + 1) by rw [Nat.mul_succ]; omega,
    Nat.mul_mod_right]

theorem driverReportSteps_closed (n : Nat) (hn : 0 < n) :
    ∀ fuel total s, n ∣ s → (total - s) / n ≤ fuel →
      driverReportSteps n fuel total s =
        (List.range ((total - s) / n)).map (fun i => s + (i + 1) * n) := by
  intro fuel
  induction fuel with
  | zero =>
    intro total s _ hle
    rw [Nat.le_zero.mp hle]
    rfl
  | succ fuel ih =>
    intro total s hdvd hle
    have hmod : s % n = 0 := by
      obtain ⟨c, rfl⟩ := hdvd
      exact Nat.mul_mod_right n c
    have hr : (CVReporter.describeNextReport n s).steps = n := by
      simp [CVReporter.describeNextReport, hmod]
    rw [driverReportSteps, hr]
    by_cases hfit : s + n ≤ total
    · have hnle : n ≤ total - s := by omega
      have hm1 : 1 ≤ (total - s) / n := (Nat.one_le_div_iff hn).mpr hnle
      have hsub : (total - (s + n)) / n = (total - s) / n - 1 := by
        have h1 : total - (s + n) = total - s - n := by omega
        have h2 : total - s - n + n = total - s := by omega
        have h3 : (total - s - n + n) / n = (total - s - n) / n + 1 :=
          Nat.add_div_right _ hn
        rw [h2] at h3
        rw [h1, h3]
        omega
      have hbound : (total - (s + n)) / n ≤ fuel := by
        rw [hsub]
        exact Nat.sub_le_of_le_add hle
      have ihres := ih total (s + n) (Dvd.dvd.add hdvd (dvd_refl n)) hbound
      rw [if_pos hfit, ihres, hsub]
      rw [show (total - s) / n = ((total - s) / n - 1) + 1 by omega,
        List.range_succ_eq_map, List.map_cons, List.map_map,
        Nat.add_sub_cancel]
      congr 1
      · ring
      · apply List.map_congr_left
        intro i _
        simp only [Function.comp_apply, Nat.succ_eq_add_one]
        ring
    · rw [if_neg hfit]
      have : (total - s) / n = 0 := Nat.div_eq_of_lt (by omega)
      rw [this]
      rfl

/-- C1: with a positive report interval and a non-empty CV list, a run of
`totalSteps` steps starting at step 0 and driven by `describeNextReport`
makes the reporter emit exactly `totalSteps / reportInterval` records, and
the step number written into each record is a positive multiple of the
interval. -/
theorem C1_record_emission (sqrtF : ℚ → ℚ) (toAngstrom : ℚ)
    (coords : Nat → Nat → Vec3) (totalSteps reportInterval : Nat)
    (cvs : List (Nat × Nat)) (hn : 0 < reportInterval) (hcv : cvs ≠ []) :
    (emittedRecords sqrtF toAngstrom coords cvs reportInterval totalSteps).length =
      totalSteps / reportInterval ∧
    ∀ r ∈ emittedRecords sqrtF toAngstrom coords cvs reportInterval totalSteps,
      r.1 % reportInterval = 0 ∧ 0 < r.1 := by
  have h0 : (totalSteps - 0) / reportInterval ≤ totalSteps + 1 := by
    have := Nat.div_le_self (totalSteps - 0) reportInterval
    omega
  have hclosed := driverReportSteps_closed reportInterval hn (totalSteps + 1) totalSteps 0
    (dvd_zero _) h0
  rw [Nat.sub_zero] at hclosed
  constructor
  · simp [emittedRecords, emittedReportSteps, hclosed]
  · intro r hr
    simp only [emittedRecords, emittedReportSteps, hclosed, List.map_map, List.mem_map,
      List.mem_range, Function.comp_apply] at hr
    obtain ⟨i, _, rfl⟩ := hr
    constructor
    · simp [Nat.mul_mod_left]
    · have := Nat.mul_pos (Nat.succ_pos i) hn
      simpa using this

/-- Witness for C1 at the spec scenario: interval 500, run of 1050 steps,
two CV pairs; there are exactly 2 records. -/
theorem C1_record_emission_witness :
    ((0:Nat) < 500 ∧ ([((0:Nat), (1:Nat)), (2, 3)] : List (Nat × Nat)) ≠ []) ∧
    ((emittedRecords (fun q => q) 1 (fun _ _ => (0, 0, 0)) [(0, 1), (2, 3)] 500 1050).length =
        1050 / 500 ∧
      ∀ r ∈ emittedRecords (fun q => q) 1 (fun _ _ => (0, 0, 0)) [(0, 1), (2, 3)] 500 1050,
        r.1 % 500 = 0 ∧ 0 < r.1) :=
  ⟨⟨by decide, by decide⟩,
    C1_record_emission (fun q => q) 1 (fun _ _ => (0, 0, 0)) 1050 500 [(0, 1), (2, 3)]
      (by decide) (by decide)⟩

/-- C2, counterexample to the periodic-image part: the descriptor returned
by `describeNextReport` carries `None` (engine default) in its
`enforcePeriodicBox` slot, not an explicit request (`False`) for absolute,
non-periodic-image-wrapped positions. -/
theorem C2_counterexample :
    ¬ (CVReporter.describeNextReport 100 0).enforcePeriodicBox = some false := by
  decide

/-- C2 (amended): for a positive interval the scheduling query returns a
step count `r` with `1 ≤ r ≤ reportInterval` and `currentStep + r`
divisible by the interval, and the descriptor requests positions only —
not velocities, forces, or energies — while leaving the periodic-wrapping
choice unset (`None`, the engine default) instead of requesting the
absolute non-wrapped form. -/
theorem C2_schedule (reportInterval currentStep : Nat) (hn : 0 < reportInterval) :
    1 ≤ (CVReporter.describeNextReport reportInterval currentStep).steps ∧
    (CVReporter.describeNextReport reportInterval currentStep).steps ≤ reportInterval ∧
    (currentStep + (CVReporter.describeNextReport reportInterval currentStep).steps) %
        reportInterval = 0 ∧
    (CVReporter.describeNextReport reportInterval currentStep).positions = true ∧
    (CVReporter.describeNextReport reportInterval currentStep).velocities = false ∧
    (CVReporter.describeNextReport reportInterval currentStep).forces = false ∧
    (CVReporter.describeNextReport reportInterval currentStep).energies = false ∧
    (CVReporter.describeNextReport reportInterval currentStep).enforcePeriodicBox = none := by
  refine ⟨?_, ?_, nextReportAt_mod reportInterval currentStep hn, rfl, rfl, rfl, rfl, rfl⟩
  · have h2 : currentStep % reportInterval < reportInterval := Nat.mod_lt _ hn
    simp only [CVReporter.describeNextReport]
    omega
  · exact Nat.sub_le _ _

/-- Witness for C2 at interval 100, current step 7. -/
theorem C2_schedule_witness :
    (0:Nat) < 100 ∧
    (1 ≤ (CVReporter.describeNextReport 100 7).steps ∧
      (CVReporter.describeNextReport 100 7).steps ≤ 100 ∧
      (7 + (CVReporter.describeNextReport 100 7).steps) % 100 = 0 ∧
      (CVReporter.describeNextReport 100 7).positions = true ∧
      (CVReporter.describeNextReport 100 7).velocities = false ∧
      (CVReporter.describeNextReport 100 7).forces = false ∧
      (CVReporter.describeNextReport 100 7).energies = false ∧
      (CVReporter.describeNextReport 100 7).enforcePeriodicBox = none) :=
  ⟨by decide, C2_schedule 100 7 (by decide)⟩

/-- C3, counterexample to the no-file-opened part: constructing with an
empty CV list does fail ("No CVs added.", the assertion surfaced as the
configuration error), but the output file has already been opened — and
truncated, since append was not requested — before the check runs. -/
theorem C3_counterexample :
    (CVReporter.init "COLVAR.dat" 100 [] false).2 = Except.error "No CVs added." ∧
    FileEvent.openFile "COLVAR.dat" FileMode.truncate ∈
      (CVReporter.init "COLVAR.dat" 100 [] false).1 := by
  constructor
  · rfl
  · simp [CVReporter.init]

/-- C3 (amended): constructing a `CVReporter` with an empty CVDefinition
always fails with the "No CVs added." configuration error and writes no
header, but only after the output file has been opened (truncating it
unless append was requested): the open event is exactly the trace the
failed construction leaves behind. -/
theorem C3_empty_cv (file : String) (reportInterval : Nat) (append : Bool) :
    CVReporter.init file reportInterval [] append =
      ([FileEvent.openFile file (if append then FileMode.append else FileMode.truncate)],
        Except.error "No CVs added.") := rfl

/-- C4: every `create_simulation_box` build performs the preparation
stages in the fixed order load → find/replace nonstandard residues → find
missing residues/atoms → add missing atoms → add hydrogens → solvate, and
every missing-atom repair it ever performs uses the constant seed 0 —
independent of the input — so two builds on identical input repair
identically. -/
theorem C4_box_pipeline (filename : String) (outfile : Option String) (opts : BoxOptions) :
    (create_simulation_box filename outfile opts).take 8 =
      [PrepOp.loadStructure filename, PrepOp.findNonstandardResidues,
        PrepOp.replaceNonstandardResidues, PrepOp.findMissingResidues,
        PrepOp.findMissingAtoms, PrepOp.addMissingAtoms 0,
        PrepOp.addHydrogens (opts.pH.getD 7),
        PrepOp.addSolvent (opts.water_model.getD "tip3p") (opts.padding.getD 10)
          (opts.positiveIon.getD "Na+") (opts.negativeIon.getD "Cl-")
          (opts.ionicStrength.getD 0) true] ∧
    ∀ seed : Nat,
      PrepOp.addMissingAtoms seed ∈ create_simulation_box filename outfile opts → seed = 0 := by
  constructor
  · cases outfile <;> rfl
  · intro seed hmem
    cases outfile <;> simp [create_simulation_box] at hmem <;> omega

/-- C8: the distance `CVReporter.report` records for a pair `(a, b)` is
the one it records for `(b, a)` — for any square-root routine and unit
factor, since the squared difference vector is unchanged by the swap —
and consequently a CVDefinition with all pairs swapped produces an
identical record row. -/
theorem C8_distance_symmetric (sqrtF : ℚ → ℚ) (toAngstrom : ℚ) (coord : Nat → Vec3)
    (a b : Nat) (cvs : List (Nat × Nat)) :
    CVReporter.cvValue sqrtF toAngstrom coord a b =
      CVReporter.cvValue sqrtF toAngstrom coord b a ∧
    CVReporter.reportBuffer sqrtF toAngstrom coord (cvs.map Prod.swap) =
      CVReporter.reportBuffer sqrtF toAngstrom coord cvs := by
  have key : ∀ x y : Nat, CVReporter.cvValue sqrtF toAngstrom coord x y =
      CVReporter.cvValue sqrtF toAngstrom coord y x := by
    intro x y
    unfold CVReporter.cvValue sqNorm vscale vsub
    congr 1
    ring
  refine ⟨key a b, ?_⟩
  unfold CVReporter.reportBuffer
  rw [List.map_map]
  apply List.map_congr_left
  intro p _
  simpa using key p.2 p.1

/-- Helper for C9: a loop over structures whose pipeline always succeeds
invokes every structure once, in order, and succeeds. -/
theorem run_simulation_all_ok (pipeline : String → Except String Unit) :
    ∀ l : List String, (∀ q ∈ l, pipeline q = Except.ok ()) →
      RunAF2RAVE.run_simulation pipeline l = (l, Except.ok ()) := by
  intro l
  induction l with
  | nil => intro _; rfl
  | cons q rest ih =>
    intro h
    have hq : pipeline q = Except.ok () := h q (by simp)
    have ih2 := ih (fun x hx => h x (by simp [hx]))
    simp [RunAF2RAVE.run_simulation, hq, ih2]

/-- C7 (spec-modelled): saving a checkpoint after `N` steps, restarting
from it, and running `K` further steps reproduces exactly the state and
the reporter-visible trajectory of an uninterrupted `N + K`-step run on
the same deterministic backend. -/
theorem C7_checkpoint_roundtrip {P V B : Type}
    (stepF : MDState P V B → MDState P V B) (s : MDState P V B) (N K : Nat) :
    UnbiasedSimulation.run stepF K
        (UnbiasedSimulation.restart
          (UnbiasedSimulation.saveCheckpoint (UnbiasedSimulation.run stepF N s))) =
      UnbiasedSimulation.run stepF (N + K) s ∧
    UnbiasedSimulation.traj stepF K
        (UnbiasedSimulation.restart
          (UnbiasedSimulation.saveCheckpoint (UnbiasedSimulation.run stepF N s))) =
      (UnbiasedSimulation.traj stepF (N + K) s).drop N := by
  have hid : UnbiasedSimulation.restart
      (UnbiasedSimulation.saveCheckpoint (UnbiasedSimulation.run stepF N s)) =
      UnbiasedSimulation.run stepF N s := rfl
  rw [hid]
  constructor
  · unfold UnbiasedSimulation.run
    rw [Nat.add_comm, Function.iterate_add_apply]
  · unfold UnbiasedSimulation.traj UnbiasedSimulation.run
    rw [← List.map_drop, List.range_add, List.drop_left' (List.length_range N),
      List.map_map]
    apply List.map_congr_left
    intro i _
    simp only [Function.comp_apply]
    rw [← Function.iterate_add_apply]
    congr 1
    omega

/-- C9, counterexample: with two cluster representatives whose first
pipeline run fails, the loop in `RunAF2RAVE.run_simulation` never invokes
the second representative's pipeline — one failure does block the
remaining structures. -/
theorem C9_counterexample :
    (RunAF2RAVE.run_simulation failingPipeline
        ["structure_0.pdb", "structure_1.pdb"]).1 = ["structure_0.pdb"] ∧
    "structure_1.pdb" ∉
      (RunAF2RAVE.run_simulation failingPipeline
        ["structure_0.pdb", "structure_1.pdb"]).1 := by
  constructor
  · rfl
  · decide

/-- C9 (amended): the loop invokes the per-structure pipeline once per
cluster representative, in list order, only up to and including the first
failure: the failure aborts the loop with that error, and representatives
after it are not invoked (when every pipeline run succeeds, every
representative is invoked exactly once). -/
theorem C9_loop_aborts (pipeline : String → Except String Unit)
    (pre post : List String) (p e : String)
    (hpre : ∀ q ∈ pre, pipeline q = Except.ok ())
    (hp : pipeline p = Except.error e) :
    RunAF2RAVE.run_simulation pipeline (pre ++ p :: post) =
      (pre ++ [p], Except.error e) ∧
    ∀ l : List String, (∀ q ∈ l, pipeline q = Except.ok ()) →
      RunAF2RAVE.run_simulation pipeline l = (l, Except.ok ()) := by
  refine ⟨?_, run_simulation_all_ok pipeline⟩
  induction pre with
  | nil => simp [RunAF2RAVE.run_simulation, hp]
  | cons q rest ih =>
    have hq : pipeline q = Except.ok () := hpre q (by simp)
    have ih2 := ih (fun x hx => hpre x (by simp [hx]))
    simp [RunAF2RAVE.run_simulation, hq, ih2]

/-- Witness for C9 (amended): first representative fails, second never
runs. -/
theorem C9_loop_aborts_witness :
    ((∀ q ∈ ([] : List String), failingPipeline q = Except.ok ()) ∧
      failingPipeline "structure_0.pdb" = Except.error "OpenMMException") ∧
    (RunAF2RAVE.run_simulation failingPipeline
        ([] ++ "structure_0.pdb" :: ["structure_1.pdb"]) =
      ([] ++ ["structure_0.pdb"], Except.error "OpenMMException") ∧
    ∀ l : List String, (∀ q ∈ l, failingPipeline q = Except.ok ()) →
      RunAF2RAVE.run_simulation failingPipeline l = (l, Except.ok ())) :=
  ⟨⟨by simp, rfl⟩,
    C9_loop_aborts failingPipeline [] ["structure_1.pdb"] "structure_0.pdb"
      "OpenMMException" (by simp) rfl⟩

/-- Looking a key up in a concatenation finds the front occurrence. -/
theorem lookupJson_append_some {a : List (String × Json)} (b : List (String × Json))
    {key : String} {v : Json} (h : lookupJson a key = some v) :
    lookupJson (a ++ b) key = some v := by
  induction a with
  | nil => simp [lookupJson] at h
  | cons kv rest ih =>
    obtain ⟨k, w⟩ := kv
    by_cases hk : k = key
    · simpa [lookupJson, hk] using h
    · rw [List.cons_append, lookupJson, if_neg hk]
      rw [lookupJson, if_neg hk] at h
      exact ih h

/-- Looking a key up in a concatenation falls through an absent front. -/
theorem lookupJson_append_none {a : List (String × Json)} (b : List (String × Json))
    {key : String} (h : lookupJson a key = none) :
    lookupJson (a ++ b) key = lookupJson b key := by
  induction a with
  | nil => rfl
  | cons kv rest ih =>
    obtain ⟨k, w⟩ := kv
    by_cases hk : k = key
    · simp [lookupJson, hk] at h
    · rw [List.cons_append, lookupJson, if_neg hk]
      rw [lookupJson, if_neg hk] at h
      exact ih h

/-- Replacing the value at one key leaves other keys untouched. -/
theorem lookupJson_setKey_ne (js : List (String × Json)) {k0 key : String}
    (x : Json) (h : k0 ≠ key) :
    lookupJson (setKey js k0 x) key = lookupJson js key := by
  induction js with
  | nil => rfl
  | cons kv rest ih =>
    obtain ⟨k, w⟩ := kv
    by_cases hk : k = k0
    · subst hk
      simp [setKey, lookupJson, h]
    · simp [setKey, lookupJson, hk, ih]

/-- Replacing the value stored at a present key makes lookups return the
new value. -/
theorem lookupJson_setKey_self (js : List (String × Json)) {k0 : String} {v : Json}
    (x : Json) (h : lookupJson js k0 = some v) :
    lookupJson (setKey js k0 x) k0 = some x := by
  induction js with
  | nil => simp [lookupJson] at h
  | cons kv rest ih =>
    obtain ⟨k, w⟩ := kv
    by_cases hk : k = k0
    · simp [setKey, lookupJson, hk]
    · rw [lookupJson, if_neg hk] at h
      simp [setKey, lookupJson, hk, ih h]

/-- Writing back the value a key already holds is the identity. -/
theorem setKey_lookup_self (js : List (String × Json)) {k0 : String} {v : Json}
    (h : lookupJson js k0 = some v) : setKey js k0 v = js := by
  induction js with
  | nil => rfl
  | cons kv rest ih =>
    obtain ⟨k, w⟩ := kv
    by_cases hk : k = k0
    · rw [lookupJson, if_pos hk] at h
      obtain rfl : w = v := by injection h
      simp [setKey, hk]
    · rw [lookupJson, if_neg hk] at h
      simp [setKey, hk, ih h]

/-- The merge `fill_missing_entries` never changes an entry whose present value is
not a dict: the supplied non-dict value survives the merge unchanged. -/
theorem lookupJson_fill_of_not_obj :
    ∀ (ds js : List (String × Json)) (key : String) (v : Json),
      lookupJson js key = some v → v.isObj = false →
      lookupJson (fill_missing_entries js ds) key = some v := by
  intro ds
  induction ds with
  | nil =>
    intro js key v hv _
    simpa [fill_missing_entries] using hv
  | cons head rest ih =>
    obtain ⟨k0, d0⟩ := head
    intro js key v hv hnot
    simp only [fill_missing_entries]
    split
    · exact ih _ key v (lookupJson_append_some _ hv) hnot
    · rename_i v0 hl
      split
      · rename_i dsub vsub
        by_cases hk : k0 = key
        · subst hk
          rw [hv] at hl
          obtain rfl : v = Json.obj vsub := by injection hl
          simp [Json.isObj] at hnot
        · exact ih _ key v (by rw [lookupJson_setKey_ne _ _ hk]; exact hv) hnot
      · exact ih _ key v hv hnot

/-- The merge `fill_missing_entries` introduces no key beyond the supplied and the
default top-level keys: a key absent from both stays absent. -/
theorem lookupJson_fill_none :
    ∀ (ds js : List (String × Json)) (key : String),
      lookupJson js key = none → key ∉ ds.map Prod.fst →
      lookupJson (fill_missing_entries js ds) key = none := by
  intro ds
  induction ds with
  | nil =>
    intro js key hv _
    simpa [fill_missing_entries] using hv
  | cons head rest ih =>
    obtain ⟨k0, d0⟩ := head
    intro js key hv hmem
    have hk : k0 ≠ key := by
      intro h
      exact hmem (by simp [h])
    have hrest : key ∉ rest.map Prod.fst := fun h => hmem (by simp [h])
    simp only [fill_missing_entries]
    split
    · refine ih _ key ?_ hrest
      rw [lookupJson_append_none _ hv]
      simp [lookupJson, hk]
    · split
      · exact ih _ key (by rw [lookupJson_setKey_ne _ _ hk]; exact hv) hrest
      · exact ih _ key hv hrest

/-- The merge `fill_missing_entries` keeps dict-valued entries dict-valued. -/
theorem lookupJson_fill_isObj :
    ∀ (ds js : List (String × Json)) (key : String) (u : List (String × Json)),
      lookupJson js key = some (Json.obj u) →
      ∃ w, lookupJson (fill_missing_entries js ds) key = some (Json.obj w) := by
  intro ds
  induction ds with
  | nil =>
    intro js key u hv
    exact ⟨u, by simpa [fill_missing_entries] using hv⟩
  | cons head rest ih =>
    obtain ⟨k0, d0⟩ := head
    intro js key u hv
    simp only [fill_missing_entries]
    split
    · exact ih _ key u (lookupJson_append_some _ hv)
    · rename_i v0 hl
      split
      · rename_i dsub vsub
        by_cases hk : k0 = key
        · subst hk
          exact ih _ _ _ (lookupJson_setKey_self _ _ hl)
        · exact ih _ key u (by rw [lookupJson_setKey_ne _ _ hk]; exact hv)
      · exact ih _ key u hv

/-- A key absent from the supplied configuration whose default value is
not a dict is inserted with exactly the default value. -/
theorem lookupJson_fill_absent_not_obj :
    ∀ (ds js : List (String × Json)) (key : String) (dv : Json),
      lookupJson js key = none → (key, dv) ∈ ds → (ds.map Prod.fst).Nodup →
      dv.isObj = false →
      lookupJson (fill_missing_entries js ds) key = some dv := by
  intro ds
  induction ds with
  | nil =>
    intro js key dv _ hmem _ _
    simp at hmem
  | cons head rest ih =>
    obtain ⟨k0, d0⟩ := head
    intro js key dv hnone hmem hnodup hnot
    rw [List.map_cons, List.nodup_cons] at hnodup
    rcases List.mem_cons.mp hmem with heq | hmemrest
    · have h1 : key = k0 := congrArg Prod.fst heq
      have h2 : dv = d0 := congrArg Prod.snd heq
      subst h1
      subst h2
      simp only [fill_missing_entries]
      split
      · refine lookupJson_fill_of_not_obj rest _ key dv ?_ hnot
        rename_i hl
        rw [lookupJson_append_none _ hl]
        simp [lookupJson]
      · rename_i v0 hl
        rw [hnone] at hl
        exact absurd hl (by simp)
    · have hk : k0 ≠ key := by
        intro h
        subst h
        have hmm := List.mem_map_of_mem Prod.fst hmemrest
        exact hnodup.1 hmm
      simp only [fill_missing_entries]
      split
      · refine ih _ key dv ?_ hmemrest hnodup.2 hnot
        rw [lookupJson_append_none _ hnone]
        simp [lookupJson, hk]
      · split
        · exact ih _ key dv (by rw [lookupJson_setKey_ne _ _ hk]; exact hnone)
            hmemrest hnodup.2 hnot
        · exact ih _ key dv hnone hmemrest hnodup.2 hnot

/-- A key absent from the supplied configuration whose default value is a
dict is inserted dict-valued. -/
theorem lookupJson_fill_absent_obj :
    ∀ (ds js : List (String × Json)) (key : String) (u : List (String × Json)),
      lookupJson js key = none → (key, Json.obj u) ∈ ds → (ds.map Prod.fst).Nodup →
      ∃ w, lookupJson (fill_missing_entries js ds) key = some (Json.obj w) := by
  intro ds
  induction ds with
  | nil =>
    intro js key u _ hmem _
    simp at hmem
  | cons head rest ih =>
    obtain ⟨k0, d0⟩ := head
    intro js key u hnone hmem hnodup
    rw [List.map_cons, List.nodup_cons] at hnodup
    rcases List.mem_cons.mp hmem with heq | hmemrest
    · have h1 : key = k0 := congrArg Prod.fst heq
      have h2 : Json.obj u = d0 := congrArg Prod.snd heq
      subst h1
      subst h2
      simp only [fill_missing_entries]
      split
      · refine lookupJson_fill_isObj rest _ key u ?_
        rename_i hl
        rw [lookupJson_append_none _ hl]
        simp [lookupJson]
      · rename_i v0 hl
        rw [hnone] at hl
        exact absurd hl (by simp)
    · have hk : k0 ≠ key := by
        intro h
        subst h
        have hmm := List.mem_map_of_mem Prod.fst hmemrest
        exact hnodup.1 hmm
      simp only [fill_missing_entries]
      split
      · refine ih _ key u ?_ hmemrest hnodup.2
        rw [lookupJson_append_none _ hnone]
        simp [lookupJson, hk]
      · split
        · exact ih _ key u (by rw [lookupJson_setKey_ne _ _ hk]; exact hnone)
            hmemrest hnodup.2
        · exact ih _ key u hnone hmemrest hnodup.2

/-- A configuration that already specifies every default key at every
nesting level is left unchanged by the merge. -/
theorem fill_missing_entries_of_fullySpecified :
    ∀ (n : Nat) (ds js : List (String × Json)), sizeOf ds ≤ n →
      fullySpecified js ds = true → fill_missing_entries js ds = js := by
  intro n
  induction n with
  | zero =>
    intro ds js hle _
    cases ds with
    | nil => simp [fill_missing_entries]
    | cons head rest =>
      simp only [List.cons.sizeOf_spec] at hle
      omega
  | succ n ih =>
    intro ds js hle hfull
    cases ds with
    | nil => simp [fill_missing_entries]
    | cons head rest =>
      obtain ⟨k0, d0⟩ := head
      have hszrest : sizeOf rest ≤ n := by
        simp only [List.cons.sizeOf_spec, Prod.mk.sizeOf_spec] at hle
        omega
      simp only [fullySpecified] at hfull
      simp only [fill_missing_entries]
      split
      · rename_i hl
        rw [hl] at hfull
        simp at hfull
      · rename_i v0 hl
        rw [hl] at hfull
        cases d0 <;> cases v0 <;>
          first
            | (rename_i dsub vsub
               have hfull2 : fullySpecified vsub dsub = true ∧
                   fullySpecified js rest = true := by
                 simpa using hfull
               have hszd : sizeOf dsub ≤ n := by
                 simp only [List.cons.sizeOf_spec, Prod.mk.sizeOf_spec,
                   Json.obj.sizeOf_spec] at hle
                 omega
               show fill_missing_entries
                   (setKey js k0 (Json.obj (fill_missing_entries vsub dsub))) rest = js
               rw [ih dsub vsub hszd hfull2.1, setKey_lookup_self js hl]
               exact ih rest js hszrest hfull2.2)
            | exact ih rest js hszrest (by simpa using hfull)

/-- Merging defaults whose keys are all fresh appends them verbatim. -/
theorem fill_missing_entries_disjoint :
    ∀ (ds js : List (String × Json)), (ds.map Prod.fst).Nodup →
      (∀ k ∈ ds.map Prod.fst, lookupJson js k = none) →
      fill_missing_entries js ds = js ++ ds := by
  intro ds
  induction ds with
  | nil =>
    intro js _ _
    simp [fill_missing_entries]
  | cons head rest ih =>
    obtain ⟨k0, d0⟩ := head
    intro js hnodup hnone
    rw [List.map_cons, List.nodup_cons] at hnodup
    have hl : lookupJson js k0 = none := hnone k0 (by simp)
    simp only [fill_missing_entries]
    split
    · have hside : ∀ k ∈ rest.map Prod.fst, lookupJson (js ++ [(k0, d0)]) k = none := by
        intro k hk
        rw [lookupJson_append_none _ (hnone k (by simp [hk]))]
        have hkk : k0 ≠ k := fun h => hnodup.1 (h ▸ hk)
        simp [lookupJson, hkk]
      rw [ih (js ++ [(k0, d0)]) hnodup.2 hside]
      simp
    · rename_i v0 hl2
      rw [hl] at hl2
      exact absurd hl2 (by simp)

/-- C5: the deep-merge `fill_missing_entries` leaves a configuration that
already specifies every key at every nesting level unchanged, and merging
the defaults into an empty configuration yields exactly the defaults — so
in both cases no key present in the input is overwritten. -/
theorem C5_deep_merge (js ds : List (String × Json))
    (hfull : fullySpecified js ds = true) (hnodup : (ds.map Prod.fst).Nodup) :
    fill_missing_entries js ds = js ∧ fill_missing_entries [] ds = ds := by
  refine ⟨fill_missing_entries_of_fullySpecified (sizeOf ds) ds js le_rfl hfull, ?_⟩
  have h := fill_missing_entries_disjoint ds [] hnodup (fun k _ => rfl)
  simpa using h

/-- Witness for C5 at the job defaults: the fully specified configuration
is the default table itself. -/
theorem C5_deep_merge_witness :
    (fullySpecified defaultValues defaultValues = true ∧
      (defaultValues.map Prod.fst).Nodup) ∧
    (fill_missing_entries defaultValues defaultValues = defaultValues ∧
      fill_missing_entries [] defaultValues = defaultValues) :=
  ⟨⟨by simp [fullySpecified, defaultValues, lookupJson], by decide⟩,
    C5_deep_merge defaultValues defaultValues
      (by simp [fullySpecified, defaultValues, lookupJson]) (by decide)⟩

/-- C10: when the supplied configuration holds a non-dict value under a
key (such as `cv_reporter` given as a scalar), the merge keeps that value
unchanged — so none of that group's nested defaults are placed under it —
and it introduces no top-level key beyond the supplied and default ones,
so the group's nested default keys are not inserted anywhere else
either. -/
theorem C10_non_dict_group (js ds : List (String × Json)) (key : String)
    (v : Json) (hv : lookupJson js key = some v) (hnot : v.isObj = false) :
    lookupJson (fill_missing_entries js ds) key = some v ∧
    ∀ k, lookupJson js k = none → k ∉ ds.map Prod.fst →
      lookupJson (fill_missing_entries js ds) k = none :=
  ⟨lookupJson_fill_of_not_obj ds js key v hv hnot,
    fun k hk hnk => lookupJson_fill_none ds js k hk hnk⟩

/-- Witness for C10: `cv_reporter` supplied as the scalar 1 against the
job defaults. -/
theorem C10_non_dict_group_witness :
    (lookupJson [("cv_reporter", Json.num 1)] "cv_reporter" = some (Json.num 1) ∧
      (Json.num 1).isObj = false) ∧
    (lookupJson (fill_missing_entries [("cv_reporter", Json.num 1)] defaultValues)
        "cv_reporter" = some (Json.num 1) ∧
      ∀ k, lookupJson [("cv_reporter", Json.num 1)] k = none →
        k ∉ defaultValues.map Prod.fst →
        lookupJson (fill_missing_entries [("cv_reporter", Json.num 1)] defaultValues)
          k = none) :=
  ⟨⟨rfl, rfl⟩,
    C10_non_dict_group [("cv_reporter", Json.num 1)] defaultValues "cv_reporter"
      (Json.num 1) rfl rfl⟩

/-- A value that satisfies `isObj` is an object. -/
theorem Json.eq_obj_of_isObj {v : Json} (h : v.isObj = true) :
    ∃ u, v = Json.obj u := by
  cases v <;> simp [Json.isObj] at h ⊢

/-- One step of the merge: how a single default entry is processed. -/
theorem fill_missing_entries_cons (js : List (String × Json)) (key : String)
    (dv : Json) (rest : List (String × Json)) :
    fill_missing_entries js ((key, dv) :: rest) =
      match lookupJson js key with
      | none => fill_missing_entries (js ++ [(key, dv)]) rest
      | some v =>
        match dv, v with
        | Json.obj dsub, Json.obj vsub =>
          fill_missing_entries
            (setKey js key (Json.obj (fill_missing_entries vsub dsub))) rest
        | _, _ => fill_missing_entries js rest := by
  simp only [fill_missing_entries]

/-- After the merge with the job defaults, a `pdb_file` that was missing
or null is present and null. -/
theorem lookupJson_fill_pdb_null (metadata : List (String × Json))
    (hpdb : lookupJson metadata "pdb_file" = none ∨
      lookupJson metadata "pdb_file" = some Json.null) :
    lookupJson (fill_missing_entries metadata defaultValues) "pdb_file" =
      some Json.null := by
  rcases hpdb with hl | hl
  · unfold defaultValues
    rw [fill_missing_entries_cons]
    split
    · refine lookupJson_fill_of_not_obj _ _ _ _ ?_ rfl
      rw [lookupJson_append_none _ hl]
      simp [lookupJson]
    · rename_i v0 hl2
      rw [hl] at hl2
      exact absurd hl2 (by simp)
  · unfold defaultValues
    rw [fill_missing_entries_cons]
    split
    · rename_i hl2
      rw [hl] at hl2
      exact absurd hl2 (by simp)
    · exact lookupJson_fill_of_not_obj _ _ _ _ hl rfl

/-- C6 (amended): for every job configuration without a usable `pdb_file`
(key absent or left at its null default), `simulation` fails before
invoking the box builder or the driver and before any checkpoint or
structure output: the invocation trace is empty.  The failure is the
`pdb_file is required.` configuration error whenever the `cv_reporter`
and `xtc_reporter` entries, if present, are dicts; when one of them is a
non-dict the kwargs construction aborts first with a `TypeError` —
still before any invocation or file creation. -/
theorem C6_missing_pdb_fails_fast (metadata : List (String × Json))
    (hpdb : lookupJson metadata "pdb_file" = none ∨
      lookupJson metadata "pdb_file" = some Json.null) :
    (simulationJob metadata).1 = [] ∧
    ((simulationJob metadata).2 = Except.error "pdb_file is required." ∨
      (simulationJob metadata).2 = Except.error "TypeError") ∧
    ((∀ v, lookupJson metadata "cv_reporter" = some v → v.isObj = true) →
      (∀ v, lookupJson metadata "xtc_reporter" = some v → v.isObj = true) →
      (simulationJob metadata).2 = Except.error "pdb_file is required.") := by
  have hpdbm := lookupJson_fill_pdb_null metadata hpdb
  have hshape : simulationJob metadata = ([], Except.error "pdb_file is required.") ∨
      simulationJob metadata = ([], Except.error "TypeError") := by
    simp only [simulationJob]
    split
    · split
      · rw [hpdbm]
        exact Or.inl rfl
      · exact Or.inr rfl
    · exact Or.inr rfl
  refine ⟨?_, ?_, ?_⟩
  · rcases hshape with h | h <;> rw [h]
  · rcases hshape with h | h <;> rw [h]
    · exact Or.inl rfl
    · exact Or.inr rfl
  · intro hcv hxtc
    have hcvm : ∃ w, lookupJson (fill_missing_entries metadata defaultValues)
        "cv_reporter" = some (Json.obj w) := by
      cases hc : lookupJson metadata "cv_reporter" with
      | none =>
        exact lookupJson_fill_absent_obj defaultValues metadata "cv_reporter"
          [("list_of_index", Json.null), ("cv_file", Json.str "COLVAR.dat"),
            ("cv_freq", Json.num 500)] hc (by simp [defaultValues]) (by decide)
      | some v =>
        obtain ⟨u, rfl⟩ := Json.eq_obj_of_isObj (hcv v hc)
        exact lookupJson_fill_isObj defaultValues metadata _ u hc
    have hxtcm : ∃ w, lookupJson (fill_missing_entries metadata defaultValues)
        "xtc_reporter" = some (Json.obj w) := by
      cases hx : lookupJson metadata "xtc_reporter" with
      | none =>
        exact lookupJson_fill_absent_obj defaultValues metadata "xtc_reporter"
          [("xtc_file", Json.str "traj.xtc"), ("xtc_freq", Json.num 5000)] hx
          (by simp [defaultValues]) (by decide)
      | some v =>
        obtain ⟨u, rfl⟩ := Json.eq_obj_of_isObj (hxtc v hx)
        exact lookupJson_fill_isObj defaultValues metadata _ u hx
    obtain ⟨w1, hcvm⟩ := hcvm
    obtain ⟨w2, hxtcm⟩ := hxtcm
    simp only [simulationJob]
    rw [hcvm, hxtcm, hpdbm]

/-- C6, counterexample to "fails with ConfigurationError": a
configuration without `pdb_file` whose `cv_reporter` entry is the scalar
5 makes `simulation` raise a `TypeError` while building kwargs (line 80,
`metadata["cv_reporter"]["list_of_index"]`), not the
`pdb_file is required.` configuration error — though still with an empty
invocation trace. -/
theorem simulationJob_typeError_of_cv_not_obj (metadata : List (String × Json))
    (v : Json)
    (hv : lookupJson (fill_missing_entries metadata defaultValues) "cv_reporter" =
      some v) (hnot : v.isObj = false) :
    simulationJob metadata = ([], Except.error "TypeError") := by
  simp only [simulationJob]
  split
  · rename_i w hw
    rw [hv] at hw
    obtain rfl : v = Json.obj w := by injection hw
    simp [Json.isObj] at hnot
  · rfl

theorem C6_counterexample :
    simulationJob [("cv_reporter", Json.num 5)] = ([], Except.error "TypeError") ∧
    lookupJson [("cv_reporter", Json.num 5)] "pdb_file" = none := by
  constructor
  · exact simulationJob_typeError_of_cv_not_obj _ (Json.num 5)
      (lookupJson_fill_of_not_obj defaultValues _ _ _ rfl rfl) rfl
  · rfl

/-- Witness for C6 (amended) at the empty configuration. -/
theorem C6_missing_pdb_witness :
    (lookupJson [] "pdb_file" = none ∨ lookupJson [] "pdb_file" = some Json.null) ∧
    ((simulationJob []).1 = [] ∧
      ((simulationJob []).2 = Except.error "pdb_file is required." ∨
        (simulationJob []).2 = Except.error "TypeError") ∧
      ((∀ v, lookupJson [] "cv_reporter" = some v → v.isObj = true) →
        (∀ v, lookupJson [] "xtc_reporter" = some v → v.isObj = true) →
        (simulationJob []).2 = Except.error "pdb_file is required.")) :=
  ⟨Or.inl rfl, C6_missing_pdb_fails_fast [] (Or.inl rfl)⟩
